import Mathlib

/-!
Shallow embedding of the Meow duplex-sponge protocol framework
(src/meow.rs, src/kitten.rs) and verification of its specification.

Bytes are modelled as natural numbers (all operations the code performs on
bytes are XOR, AND and assignment, which keep values below 256 when the
inputs are; no theorem here needs the bound).  The 200-byte sponge state is
a list of naturals.  The kitten permutation (an external crate in the
source) is an arbitrary parameter of type Perm: every property proved below
holds for every permutation.  Rust panics are modelled with the Except
monad: a value of type Panic says which abort was reached.
-/

/-- Type of the state permutation.  The source applies the kitten
permutation (10-round keccak-p, from an external crate) to the 200-byte
state; all results below hold for an arbitrary function on byte lists. -/
def Perm : Type := List Nat → List Nat

/-- SECURITY_PARAM in src/meow.rs: hard coded 128 bits. -/
def SECURITY_PARAM : Nat := 128

/-- STATE_SIZE_U8 in src/kitten.rs: 25 words of 8 bytes. -/
def STATE_SIZE_U8 : Nat := 25 * 8

/-- MEOW_R in src/meow.rs: the sponge rate, 166. -/
def MEOW_R : Nat := STATE_SIZE_U8 - (2 * SECURITY_PARAM) / 8 - 2

/-- MEOW_CONTEXT in src/meow.rs: the ASCII bytes of the context string
used at initialization. -/
def MEOW_CONTEXT : List Nat :=
  [0x4d, 0x65, 0x6f, 0x77, 0x20, 0x76, 0x30, 0x2e, 0x31, 0x2e, 0x30]

/-- Flag bits, 6.2 of src/meow.rs. Inbound. -/
def FLAG_I : Nat := 0b00000001
/-- Application flag. -/
def FLAG_A : Nat := 0b00000010
/-- Cipher flag. -/
def FLAG_C : Nat := 0b00000100
/-- Transport flag. -/
def FLAG_T : Nat := 0b00001000
/-- Meta flag. -/
def FLAG_M : Nat := 0b00010000
/-- Keytree flag. -/
def FLAG_K : Nat := 0b00100000

/-- Role of a participant (src/meow.rs).  Undecided is the initial state. -/
inductive Role where
  | Undecided
  | Initiator
  | Responder
deriving DecidableEq

/-- The abort reasons of the source: the assert inside begin_op when a
continuation carries different flags, and the panic inside Role::to_flag
when an Undecided role is converted. -/
inductive Panic where
  | contMismatch
  | undecidedRole
deriving DecidableEq

/-- MacError in src/meow.rs: MAC verification failed. -/
inductive MacError where
  | mk
deriving DecidableEq

/-- From u8 for Role in src/meow.rs: 0 is Initiator, 1 is Responder,
anything else Undecided. -/
def Role.fromU8 (x : Nat) : Role :=
  match x with
  | 0 => Role.Initiator
  | 1 => Role.Responder
  | _ => Role.Undecided

/-- Role::to_flag in src/meow.rs.  Converting Undecided panics. -/
def Role.to_flag : Role → Except Panic Nat
  | Role.Undecided => Except.error Panic.undecidedRole
  | Role.Initiator => Except.ok 0
  | Role.Responder => Except.ok 1

/-- The loop of check_zero in src/meow.rs: a Choice starting at 1,
and-combined with the zero test of every byte, with no early exit. -/
def allZero (data : List Nat) : Bool :=
  data.foldl (fun ok b => ok && decide (b = 0)) true

/-- check_zero in src/meow.rs: Err(MacError) unless every byte is zero. -/
def check_zero (data : List Nat) : Except MacError Unit :=
  if allZero data then Except.ok () else Except.error MacError.mk

/-- The state of a Meow instance (struct Meow in src/meow.rs). -/
structure Meow where
  state : List Nat
  pos : Nat
  pos_begin : Nat
  role : Role
  cur_flags : Nat

/-- Meow::run_f, 7.1 of src/meow.rs: the framing and padding step.
AND state[pos] with pos_begin, AND state[pos+1] with 0x04, XOR
state[MEOW_R+1] with 0x80, permute, and reset both cursor fields. -/
def Meow.run_f (f : Perm) (m : Meow) : Meow :=
  let s1 := m.state.set m.pos (m.state.getD m.pos 0 &&& m.pos_begin)
  let s2 := s1.set (m.pos + 1) (s1.getD (m.pos + 1) 0 &&& 0x04)
  let s3 := s2.set (MEOW_R + 1) (s2.getD (MEOW_R + 1) 0 ^^^ 0x80)
  { m with state := f s3, pos := 0, pos_begin := 0 }

/-- Meow::advance_pos in src/meow.rs: move the cursor forward, running
the permutation step when it reaches the rate. -/
def Meow.advance_pos (f : Perm) (m : Meow) : Meow :=
  let m1 := { m with pos := m.pos + 1 }
  if m1.pos = MEOW_R then Meow.run_f f m1 else m1

/-- Loop body of Meow::absorb: XOR the input byte into state[pos]. -/
def absorbCore (m : Meow) (b : Nat) : Meow × Nat :=
  ({ m with state := m.state.set m.pos (m.state.getD m.pos 0 ^^^ b) }, b)

/-- Loop body of Meow::absorb_and_set: XOR the input byte into state[pos]
and write the resulting state byte back into the buffer. -/
def absorbAndSetCore (m : Meow) (b : Nat) : Meow × Nat :=
  let v := m.state.getD m.pos 0 ^^^ b
  ({ m with state := m.state.set m.pos v }, v)

/-- Loop body of Meow::overwrite: replace state[pos] with the input byte. -/
def overwriteCore (m : Meow) (b : Nat) : Meow × Nat :=
  ({ m with state := m.state.set m.pos b }, b)

/-- Loop body of Meow::zero_out: replace state[pos] with zero. -/
def zeroOutCore (m : Meow) (_b : Nat) : Meow × Nat :=
  ({ m with state := m.state.set m.pos 0 }, 0)

/-- Loop body of Meow::exchange: XOR state[pos] into the buffer byte,
then XOR the new buffer byte into state[pos]. -/
def exchangeCore (m : Meow) (b : Nat) : Meow × Nat :=
  let b2 := b ^^^ m.state.getD m.pos 0
  ({ m with state := m.state.set m.pos (m.state.getD m.pos 0 ^^^ b2) }, b2)

/-- Loop body of Meow::copy: read state[pos] into the buffer byte. -/
def copyCore (m : Meow) (_b : Nat) : Meow × Nat :=
  (m, m.state.getD m.pos 0)

/-- Loop body of Meow::squeeze: read state[pos] into the buffer byte and
clear state[pos]. -/
def squeezeCore (m : Meow) (_b : Nat) : Meow × Nat :=
  ({ m with state := m.state.set m.pos 0 }, m.state.getD m.pos 0)

/-- The shared shape of every duplex primitive in src/meow.rs: for each
buffer byte run the loop body, then advance_pos.  Returns the final state
and the bytes left in the caller buffer. -/
def byteLoop (f : Perm) (core : Meow → Nat → Meow × Nat) :
    Meow → List Nat → Meow × List Nat
  | m, [] => (m, [])
  | m, b :: bs =>
    let p := core m b
    let q := byteLoop f core (Meow.advance_pos f p.1) bs
    (q.1, p.2 :: q.2)

/-- Meow::absorb in src/meow.rs. -/
def Meow.absorb (f : Perm) (m : Meow) (data : List Nat) : Meow :=
  (byteLoop f absorbCore m data).1

/-- Meow::absorb_and_set in src/meow.rs. -/
def Meow.absorb_and_set (f : Perm) (m : Meow) (data : List Nat) :
    Meow × List Nat :=
  byteLoop f absorbAndSetCore m data

/-- Meow::overwrite in src/meow.rs. -/
def Meow.overwrite (f : Perm) (m : Meow) (data : List Nat) : Meow :=
  (byteLoop f overwriteCore m data).1

/-- Meow::zero_out in src/meow.rs: len iterations of the zero-writing body. -/
def Meow.zero_out (f : Perm) (m : Meow) (len : Nat) : Meow :=
  (byteLoop f zeroOutCore m (List.replicate len 0)).1

/-- Meow::exchange in src/meow.rs. -/
def Meow.exchange (f : Perm) (m : Meow) (data : List Nat) : Meow × List Nat :=
  byteLoop f exchangeCore m data

/-- Meow::copy in src/meow.rs. -/
def Meow.copy (f : Perm) (m : Meow) (data : List Nat) : Meow × List Nat :=
  byteLoop f copyCore m data

/-- Meow::squeeze in src/meow.rs. -/
def Meow.squeeze (f : Perm) (m : Meow) (data : List Nat) : Meow × List Nat :=
  byteLoop f squeezeCore m data

/-- The tail of Meow::begin_op after the flags have been adjusted for the
role: remember where the header starts, absorb the two header bytes
(previous frame start offset, adjusted flags), and force the permutation
step if Cipher or Keytree is set and the cursor is not at a frame start. -/
def Meow.op_header (f : Perm) (m : Meow) (flags2 : Nat) : Meow :=
  let old_begin := m.pos_begin
  let m1 := { m with pos_begin := m.pos + 1 }
  let m2 := Meow.absorb f m1 [old_begin, flags2]
  if flags2 &&& (FLAG_C ||| FLAG_K) ≠ 0 ∧ m2.pos ≠ 0 then Meow.run_f f m2 else m2

/-- Meow::begin_op, 7.3 of src/meow.rs.  A continuation must repeat the
latched flags exactly (else the assert fires); otherwise the flags are
latched, the role is decided on the first Transport operation and its
1-bit encoding is XORed into the flags that get absorbed as the header. -/
def Meow.begin_op (f : Perm) (m : Meow) (flags : Nat) (more : Bool) :
    Except Panic Meow :=
  match more with
  | true =>
    if m.cur_flags = flags then Except.ok m else Except.error Panic.contMismatch
  | false =>
    let m1 := { m with cur_flags := flags }
    if flags &&& FLAG_T ≠ 0 then
      let m2 := if m1.role = Role.Undecided then
                  { m1 with role := Role.fromU8 (flags &&& FLAG_I) }
                else m1
      match Role.to_flag m2.role with
      | Except.error p => Except.error p
      | Except.ok rf => Except.ok (Meow.op_header f m2 (flags ^^^ rf))
    else
      Except.ok (Meow.op_header f m1 flags)

/-- Meow::ad in src/meow.rs. -/
def Meow.ad (f : Perm) (m : Meow) (data : List Nat) (more : Bool) :
    Except Panic Meow :=
  (Meow.begin_op f m FLAG_A more).map (fun m1 => Meow.absorb f m1 data)

/-- Meow::meta_ad in src/meow.rs. -/
def Meow.meta_ad (f : Perm) (m : Meow) (data : List Nat) (more : Bool) :
    Except Panic Meow :=
  (Meow.begin_op f m (FLAG_M ||| FLAG_A) more).map
    (fun m1 => Meow.absorb f m1 data)

/-- Meow::key in src/meow.rs. -/
def Meow.key (f : Perm) (m : Meow) (data : List Nat) (more : Bool) :
    Except Panic Meow :=
  (Meow.begin_op f m (FLAG_A ||| FLAG_C) more).map
    (fun m1 => Meow.overwrite f m1 data)

/-- Meow::send_clr in src/meow.rs. -/
def Meow.send_clr (f : Perm) (m : Meow) (data : List Nat) (more : Bool) :
    Except Panic Meow :=
  (Meow.begin_op f m (FLAG_A ||| FLAG_T) more).map
    (fun m1 => Meow.absorb f m1 data)

/-- Meow::meta_send_clr in src/meow.rs. -/
def Meow.meta_send_clr (f : Perm) (m : Meow) (data : List Nat) (more : Bool) :
    Except Panic Meow :=
  (Meow.begin_op f m (FLAG_M ||| FLAG_A ||| FLAG_T) more).map
    (fun m1 => Meow.absorb f m1 data)

/-- Meow::recv_clr in src/meow.rs. -/
def Meow.recv_clr (f : Perm) (m : Meow) (data : List Nat) (more : Bool) :
    Except Panic Meow :=
  (Meow.begin_op f m (FLAG_I ||| FLAG_A ||| FLAG_T) more).map
    (fun m1 => Meow.absorb f m1 data)

/-- Meow::meta_recv_clr in src/meow.rs. -/
def Meow.meta_recv_clr (f : Perm) (m : Meow) (data : List Nat) (more : Bool) :
    Except Panic Meow :=
  (Meow.begin_op f m (FLAG_M ||| FLAG_I ||| FLAG_A ||| FLAG_T) more).map
    (fun m1 => Meow.absorb f m1 data)

/-- Meow::send_enc in src/meow.rs: the returned list is the content the
caller buffer was mutated to (the ciphertext). -/
def Meow.send_enc (f : Perm) (m : Meow) (data : List Nat) (more : Bool) :
    Except Panic (Meow × List Nat) :=
  (Meow.begin_op f m (FLAG_A ||| FLAG_C ||| FLAG_T) more).map
    (fun m1 => Meow.absorb_and_set f m1 data)

/-- Meow::meta_send_enc in src/meow.rs. -/
def Meow.meta_send_enc (f : Perm) (m : Meow) (data : List Nat) (more : Bool) :
    Except Panic (Meow × List Nat) :=
  (Meow.begin_op f m (FLAG_M ||| FLAG_A ||| FLAG_C ||| FLAG_T) more).map
    (fun m1 => Meow.absorb_and_set f m1 data)

/-- Meow::recv_enc in src/meow.rs: the returned list is the recovered
plaintext left in the caller buffer. -/
def Meow.recv_enc (f : Perm) (m : Meow) (data : List Nat) (more : Bool) :
    Except Panic (Meow × List Nat) :=
  (Meow.begin_op f m (FLAG_I ||| FLAG_A ||| FLAG_C ||| FLAG_T) more).map
    (fun m1 => Meow.exchange f m1 data)

/-- Meow::meta_recv_enc in src/meow.rs. -/
def Meow.meta_recv_enc (f : Perm) (m : Meow) (data : List Nat) (more : Bool) :
    Except Panic (Meow × List Nat) :=
  (Meow.begin_op f m (FLAG_M ||| FLAG_I ||| FLAG_A ||| FLAG_C ||| FLAG_T) more).map
    (fun m1 => Meow.exchange f m1 data)

/-- Meow::send_mac in src/meow.rs: no continuation argument, the buffer is
filled with the MAC. -/
def Meow.send_mac (f : Perm) (m : Meow) (data : List Nat) :
    Except Panic (Meow × List Nat) :=
  (Meow.begin_op f m (FLAG_C ||| FLAG_T) false).map
    (fun m1 => Meow.copy f m1 data)

/-- Meow::meta_send_mac in src/meow.rs. -/
def Meow.meta_send_mac (f : Perm) (m : Meow) (data : List Nat) :
    Except Panic (Meow × List Nat) :=
  (Meow.begin_op f m (FLAG_M ||| FLAG_C ||| FLAG_T) false).map
    (fun m1 => Meow.copy f m1 data)

/-- Meow::recv_mac in src/meow.rs: exchange the tag into the buffer, then
run the constant-time zero check on what is left there.  The result
carries the final state, the buffer content and the verification result. -/
def Meow.recv_mac (f : Perm) (m : Meow) (data : List Nat) :
    Except Panic (Meow × List Nat × Except MacError Unit) :=
  (Meow.begin_op f m (FLAG_I ||| FLAG_C ||| FLAG_T) false).map
    (fun m1 =>
      let p := Meow.exchange f m1 data
      (p.1, p.2, check_zero p.2))

/-- Meow::meta_recv_mac in src/meow.rs. -/
def Meow.meta_recv_mac (f : Perm) (m : Meow) (data : List Nat) :
    Except Panic (Meow × List Nat × Except MacError Unit) :=
  (Meow.begin_op f m (FLAG_M ||| FLAG_I ||| FLAG_C ||| FLAG_T) false).map
    (fun m1 =>
      let p := Meow.exchange f m1 data
      (p.1, p.2, check_zero p.2))

/-- Meow::prf in src/meow.rs. -/
def Meow.prf (f : Perm) (m : Meow) (data : List Nat) (more : Bool) :
    Except Panic (Meow × List Nat) :=
  (Meow.begin_op f m (FLAG_I ||| FLAG_A ||| FLAG_C) more).map
    (fun m1 => Meow.squeeze f m1 data)

/-- Meow::ratchet_many in src/meow.rs. -/
def Meow.ratchet_many (f : Perm) (m : Meow) (len : Nat) (more : Bool) :
    Except Panic Meow :=
  (Meow.begin_op f m FLAG_C more).map (fun m1 => Meow.zero_out f m1 len)

/-- Meow::ratchet in src/meow.rs: ratchet_many with SECURITY_PARAM/8 bytes. -/
def Meow.ratchet (f : Perm) (m : Meow) : Except Panic Meow :=
  Meow.ratchet_many f m (SECURITY_PARAM / 8) false

/-- The 200-byte initial state written by Meow::new before the first
permutation: the fixed 6-byte header, the context string, zero padding. -/
def initState : List Nat :=
  [0x01, MEOW_R + 2, 0x01, 0x00, 0x01, 0x60] ++ MEOW_CONTEXT ++
    List.replicate (STATE_SIZE_U8 - (6 + MEOW_CONTEXT.length)) 0

/-- Meow::new in src/meow.rs: build the initial state, permute it once,
then absorb the protocol label as metadata. -/
def Meow.new (f : Perm) (protocol : List Nat) : Except Panic Meow :=
  Meow.meta_ad f
    { state := f initState, pos := 0, pos_begin := 0,
      role := Role.Undecided, cur_flags := 0 }
    protocol false

/-- One call of the public operation surface of Meow, with its arguments.
Used to quantify over arbitrary sequences of public calls. -/
inductive Op where
  | ad (data : List Nat) (more : Bool)
  | meta_ad (data : List Nat) (more : Bool)
  | key (data : List Nat) (more : Bool)
  | send_clr (data : List Nat) (more : Bool)
  | meta_send_clr (data : List Nat) (more : Bool)
  | recv_clr (data : List Nat) (more : Bool)
  | meta_recv_clr (data : List Nat) (more : Bool)
  | send_enc (data : List Nat) (more : Bool)
  | meta_send_enc (data : List Nat) (more : Bool)
  | recv_enc (data : List Nat) (more : Bool)
  | meta_recv_enc (data : List Nat) (more : Bool)
  | send_mac (data : List Nat)
  | meta_send_mac (data : List Nat)
  | recv_mac (data : List Nat)
  | meta_recv_mac (data : List Nat)
  | prf (data : List Nat) (more : Bool)
  | ratchet
  | ratchet_many (len : Nat) (more : Bool)

/-- Run one public operation, keeping the instance state evolution (the
bytes returned to the caller are dropped; panics are kept). -/
def runOp (f : Perm) (op : Op) (m : Meow) : Except Panic Meow :=
  match op with
  | Op.ad d more => Meow.ad f m d more
  | Op.meta_ad d more => Meow.meta_ad f m d more
  | Op.key d more => Meow.key f m d more
  | Op.send_clr d more => Meow.send_clr f m d more
  | Op.meta_send_clr d more => Meow.meta_send_clr f m d more
  | Op.recv_clr d more => Meow.recv_clr f m d more
  | Op.meta_recv_clr d more => Meow.meta_recv_clr f m d more
  | Op.send_enc d more => (Meow.send_enc f m d more).map Prod.fst
  | Op.meta_send_enc d more => (Meow.meta_send_enc f m d more).map Prod.fst
  | Op.recv_enc d more => (Meow.recv_enc f m d more).map Prod.fst
  | Op.meta_recv_enc d more => (Meow.meta_recv_enc f m d more).map Prod.fst
  | Op.send_mac d => (Meow.send_mac f m d).map Prod.fst
  | Op.meta_send_mac d => (Meow.meta_send_mac f m d).map Prod.fst
  | Op.recv_mac d => (Meow.recv_mac f m d).map Prod.fst
  | Op.meta_recv_mac d => (Meow.meta_recv_mac f m d).map Prod.fst
  | Op.prf d more => (Meow.prf f m d more).map Prod.fst
  | Op.ratchet => Meow.ratchet f m
  | Op.ratchet_many len more => Meow.ratchet_many f m len more

/-- Run a sequence of public operations, stopping at the first panic. -/
def runOps (f : Perm) (ops : List Op) (m : Meow) : Except Panic Meow :=
  match ops with
  | [] => Except.ok m
  | op :: rest => Except.bind (runOp f op m) (fun m1 => runOps f rest m1)

/-- Create an instance with Meow::new and run a sequence of public
operations on it. -/
def runFromNew (f : Perm) (label : List Nat) (ops : List Op) :
    Except Panic Meow :=
  Except.bind (Meow.new f label) (fun m => runOps f ops m)

/-- Cursor position of a possibly-panicked instance; a panic aborts the
program, so that case reports 0. -/
def posOf (e : Except Panic Meow) : Nat :=
  match e with
  | Except.ok m => m.pos
  | Except.error _ => 0

/-- Outcome of recv_mac: none when the call panics, some true when the
MAC verifies, some false when it returns Err(MacError). -/
def macResult (f : Perm) (m : Meow) (data : List Nat) : Option Bool :=
  match Meow.recv_mac f m data with
  | Except.error _ => none
  | Except.ok (_, _, Except.ok _) => some true
  | Except.ok (_, _, Except.error _) => some false

/-- The continuation argument an operation was called with, none for the
operations that have no such argument. -/
def moreOf (op : Op) : Option Bool :=
  match op with
  | Op.ad _ more => some more
  | Op.meta_ad _ more => some more
  | Op.key _ more => some more
  | Op.send_clr _ more => some more
  | Op.meta_send_clr _ more => some more
  | Op.recv_clr _ more => some more
  | Op.meta_recv_clr _ more => some more
  | Op.send_enc _ more => some more
  | Op.meta_send_enc _ more => some more
  | Op.recv_enc _ more => some more
  | Op.meta_recv_enc _ more => some more
  | Op.send_mac _ => none
  | Op.meta_send_mac _ => none
  | Op.recv_mac _ => none
  | Op.meta_recv_mac _ => none
  | Op.prf _ more => some more
  | Op.ratchet => none
  | Op.ratchet_many _ more => some more

/-- The flag byte each public operation passes to begin_op. -/
def opFlags (op : Op) : Nat :=
  match op with
  | Op.ad _ _ => FLAG_A
  | Op.meta_ad _ _ => FLAG_M ||| FLAG_A
  | Op.key _ _ => FLAG_A ||| FLAG_C
  | Op.send_clr _ _ => FLAG_A ||| FLAG_T
  | Op.meta_send_clr _ _ => FLAG_M ||| FLAG_A ||| FLAG_T
  | Op.recv_clr _ _ => FLAG_I ||| FLAG_A ||| FLAG_T
  | Op.meta_recv_clr _ _ => FLAG_M ||| FLAG_I ||| FLAG_A ||| FLAG_T
  | Op.send_enc _ _ => FLAG_A ||| FLAG_C ||| FLAG_T
  | Op.meta_send_enc _ _ => FLAG_M ||| FLAG_A ||| FLAG_C ||| FLAG_T
  | Op.recv_enc _ _ => FLAG_I ||| FLAG_A ||| FLAG_C ||| FLAG_T
  | Op.meta_recv_enc _ _ => FLAG_M ||| FLAG_I ||| FLAG_A ||| FLAG_C ||| FLAG_T
  | Op.send_mac _ => FLAG_C ||| FLAG_T
  | Op.meta_send_mac _ => FLAG_M ||| FLAG_C ||| FLAG_T
  | Op.recv_mac _ => FLAG_I ||| FLAG_C ||| FLAG_T
  | Op.meta_recv_mac _ => FLAG_M ||| FLAG_I ||| FLAG_C ||| FLAG_T
  | Op.prf _ _ => FLAG_I ||| FLAG_A ||| FLAG_C
  | Op.ratchet => FLAG_C
  | Op.ratchet_many _ _ => FLAG_C

/-- The payload processing of each public operation: exactly the duplex
primitive it dispatches to, with no header bytes absorbed. -/
def payloadOf (f : Perm) (op : Op) (m : Meow) : Meow :=
  match op with
  | Op.ad d _ => Meow.absorb f m d
  | Op.meta_ad d _ => Meow.absorb f m d
  | Op.key d _ => Meow.overwrite f m d
  | Op.send_clr d _ => Meow.absorb f m d
  | Op.meta_send_clr d _ => Meow.absorb f m d
  | Op.recv_clr d _ => Meow.absorb f m d
  | Op.meta_recv_clr d _ => Meow.absorb f m d
  | Op.send_enc d _ => (Meow.absorb_and_set f m d).1
  | Op.meta_send_enc d _ => (Meow.absorb_and_set f m d).1
  | Op.recv_enc d _ => (Meow.exchange f m d).1
  | Op.meta_recv_enc d _ => (Meow.exchange f m d).1
  | Op.send_mac d => (Meow.copy f m d).1
  | Op.meta_send_mac d => (Meow.copy f m d).1
  | Op.recv_mac d => (Meow.exchange f m d).1
  | Op.meta_recv_mac d => (Meow.exchange f m d).1
  | Op.prf d _ => (Meow.squeeze f m d).1
  | Op.ratchet => Meow.zero_out f m (SECURITY_PARAM / 8)
  | Op.ratchet_many len _ => Meow.zero_out f m len

/-- The framing step as its specification words it: AND state[pos] with
pos_begin, AND state[pos+1] with the fixed mask 0x04, XOR the byte at
rate+1 (rate being 166) with 0x80, permute, reset pos and pos_begin to 0. -/
def run_f_spec (f : Perm) (m : Meow) : Meow :=
  let s1 := m.state.set m.pos (m.state.getD m.pos 0 &&& m.pos_begin)
  let s2 := s1.set (m.pos + 1) (s1.getD (m.pos + 1) 0 &&& 0x04)
  let s3 := s2.set (166 + 1) (s2.getD (166 + 1) 0 ^^^ 0x80)
  { m with state := f s3, pos := 0, pos_begin := 0 }

/-- The sender side of the round-trip scenario: new(label), key(K),
send_enc(M); returns the final instance and the ciphertext. -/
def sendChain (f : Perm) (label K M : List Nat) :
    Except Panic (Meow × List Nat) :=
  Except.bind (Meow.new f label) (fun m0 =>
    Except.bind (Meow.key f m0 K false) (fun m1 =>
      Meow.send_enc f m1 M false))

/-- The receiver side of the round-trip scenario: new(label), key(K),
recv_enc(C); returns the final instance and the recovered plaintext. -/
def recvChain (f : Perm) (label K C : List Nat) :
    Except Panic (Meow × List Nat) :=
  Except.bind (Meow.new f label) (fun m0 =>
    Except.bind (Meow.key f m0 K false) (fun m1 =>
      Meow.recv_enc f m1 C false))

/-- A concrete fresh instance used by witnesses and counterexamples. -/
def cexMeow : Meow :=
  { state := List.replicate STATE_SIZE_U8 0, pos := 0, pos_begin := 0,
    role := Role.Undecided, cur_flags := 0 }

/-- A concrete instance whose byte at the cursor is 1, used to refute the
claimed state update of the exchange primitive. -/
def cexM3 : Meow :=
  { state := 1 :: List.replicate (STATE_SIZE_U8 - 1) 0, pos := 0,
    pos_begin := 0, role := Role.Undecided, cur_flags := 0 }

theorem meowR_eq : MEOW_R = 166 := rfl

theorem run_f_pos (f : Perm) (m : Meow) : (Meow.run_f f m).pos = 0 := rfl

theorem run_f_pos_begin (f : Perm) (m : Meow) :
    (Meow.run_f f m).pos_begin = 0 := rfl

theorem run_f_role (f : Perm) (m : Meow) : (Meow.run_f f m).role = m.role := rfl

theorem run_f_cur (f : Perm) (m : Meow) :
    (Meow.run_f f m).cur_flags = m.cur_flags := rfl

theorem advance_pos_eq (f : Perm) (m : Meow) :
    Meow.advance_pos f m =
      if m.pos + 1 = MEOW_R then Meow.run_f f { m with pos := m.pos + 1 }
      else { m with pos := m.pos + 1 } := rfl

theorem advance_role (f : Perm) (m : Meow) :
    (Meow.advance_pos f m).role = m.role := by
  rw [advance_pos_eq]; split <;> rfl

theorem advance_cur (f : Perm) (m : Meow) :
    (Meow.advance_pos f m).cur_flags = m.cur_flags := by
  rw [advance_pos_eq]; split <;> rfl

theorem advance_pos_lt (f : Perm) (m : Meow) (h : m.pos < MEOW_R) :
    (Meow.advance_pos f m).pos < MEOW_R := by
  rw [advance_pos_eq]
  split
  · rw [run_f_pos]; decide
  · next h2 => exact Nat.lt_of_le_of_ne h h2

theorem byteLoop_nil (f : Perm) (core : Meow → Nat → Meow × Nat) (m : Meow) :
    byteLoop f core m [] = (m, []) := rfl

theorem byteLoop_cons (f : Perm) (core : Meow → Nat → Meow × Nat) (m : Meow)
    (b : Nat) (bs : List Nat) :
    byteLoop f core m (b :: bs) =
      ((byteLoop f core (Meow.advance_pos f (core m b).1) bs).1,
       (core m b).2 :: (byteLoop f core (Meow.advance_pos f (core m b).1) bs).2) :=
  rfl

theorem byteLoop_pos (f : Perm) (core : Meow → Nat → Meow × Nat)
    (hc : ∀ m b, (core m b).1.pos = m.pos) :
    ∀ (data : List Nat) (m : Meow), m.pos < MEOW_R →
      (byteLoop f core m data).1.pos < MEOW_R := by
  intro data
  induction data with
  | nil => intro m h; exact h
  | cons b bs ih =>
    intro m h
    rw [byteLoop_cons]
    exact ih _ (advance_pos_lt f (core m b).1 (by rw [hc]; exact h))

theorem byteLoop_rolecur (f : Perm) (core : Meow → Nat → Meow × Nat)
    (hc : ∀ m b, (core m b).1.role = m.role ∧ (core m b).1.cur_flags = m.cur_flags) :
    ∀ (data : List Nat) (m : Meow),
      (byteLoop f core m data).1.role = m.role ∧
      (byteLoop f core m data).1.cur_flags = m.cur_flags := by
  intro data
  induction data with
  | nil => intro m; exact ⟨rfl, rfl⟩
  | cons b bs ih =>
    intro m
    rw [byteLoop_cons]
    have h1 := ih (Meow.advance_pos f (core m b).1)
    constructor
    · rw [h1.1, advance_role, (hc m b).1]
    · rw [h1.2, advance_cur, (hc m b).2]

theorem byteLoop_append (f : Perm) (core : Meow → Nat → Meow × Nat) :
    ∀ (xs ys : List Nat) (m : Meow),
      byteLoop f core m (xs ++ ys) =
        ((byteLoop f core (byteLoop f core m xs).1 ys).1,
         (byteLoop f core m xs).2 ++
           (byteLoop f core (byteLoop f core m xs).1 ys).2) := by
  intro xs
  induction xs with
  | nil => intro ys m; simp [byteLoop_nil]
  | cons b bs ih =>
    intro ys m
    rw [List.cons_append, byteLoop_cons, byteLoop_cons, ih]
    simp [byteLoop_cons]

theorem run_f_congr (f : Perm) (m1 m2 : Meow) (hs : m1.state = m2.state)
    (hp : m1.pos = m2.pos) (hpb : m1.pos_begin = m2.pos_begin) :
    (Meow.run_f f m1).state = (Meow.run_f f m2).state ∧
    (Meow.run_f f m1).pos = (Meow.run_f f m2).pos ∧
    (Meow.run_f f m1).pos_begin = (Meow.run_f f m2).pos_begin := by
  refine ⟨?_, rfl, rfl⟩
  simp only [Meow.run_f, hs, hp, hpb]

theorem advance_congr (f : Perm) (m1 m2 : Meow) (hs : m1.state = m2.state)
    (hp : m1.pos = m2.pos) (hpb : m1.pos_begin = m2.pos_begin) :
    (Meow.advance_pos f m1).state = (Meow.advance_pos f m2).state ∧
    (Meow.advance_pos f m1).pos = (Meow.advance_pos f m2).pos ∧
    (Meow.advance_pos f m1).pos_begin = (Meow.advance_pos f m2).pos_begin := by
  rw [advance_pos_eq, advance_pos_eq, hp]
  split
  · exact run_f_congr f _ _ hs (by simp [hp]) hpb
  · exact ⟨hs, by simp [hp], hpb⟩

theorem byteLoop_congr (f : Perm) (core : Meow → Nat → Meow × Nat)
    (hcore : ∀ (m1 m2 : Meow) (b : Nat), m1.state = m2.state → m1.pos = m2.pos →
      m1.pos_begin = m2.pos_begin →
      (core m1 b).1.state = (core m2 b).1.state ∧
      (core m1 b).1.pos = (core m2 b).1.pos ∧
      (core m1 b).1.pos_begin = (core m2 b).1.pos_begin ∧
      (core m1 b).2 = (core m2 b).2) :
    ∀ (data : List Nat) (m1 m2 : Meow), m1.state = m2.state → m1.pos = m2.pos →
      m1.pos_begin = m2.pos_begin →
      (byteLoop f core m1 data).1.state = (byteLoop f core m2 data).1.state ∧
      (byteLoop f core m1 data).1.pos = (byteLoop f core m2 data).1.pos ∧
      (byteLoop f core m1 data).1.pos_begin = (byteLoop f core m2 data).1.pos_begin ∧
      (byteLoop f core m1 data).2 = (byteLoop f core m2 data).2 := by
  intro data
  induction data with
  | nil => intro m1 m2 hs hp hpb; exact ⟨hs, hp, hpb, rfl⟩
  | cons b bs ih =>
    intro m1 m2 hs hp hpb
    obtain ⟨cs, cp, cpb, cout⟩ := hcore m1 m2 b hs hp hpb
    obtain ⟨as, ap, apb⟩ := advance_congr f (core m1 b).1 (core m2 b).1 cs cp cpb
    obtain ⟨ls, lp, lpb, lout⟩ := ih (Meow.advance_pos f (core m1 b).1)
      (Meow.advance_pos f (core m2 b).1) as ap apb
    rw [byteLoop_cons, byteLoop_cons]
    exact ⟨ls, lp, lpb, by rw [cout, lout]⟩

theorem absorb_rolecur (f : Perm) (m : Meow) (data : List Nat) :
    (Meow.absorb f m data).role = m.role ∧
    (Meow.absorb f m data).cur_flags = m.cur_flags :=
  byteLoop_rolecur f absorbCore (fun _ _ => ⟨rfl, rfl⟩) data m

theorem absorb_pos (f : Perm) (m : Meow) (data : List Nat)
    (h : m.pos < MEOW_R) : (Meow.absorb f m data).pos < MEOW_R :=
  byteLoop_pos f absorbCore (fun _ _ => rfl) data m h

theorem absorb_append (f : Perm) (m : Meow) (xs ys : List Nat) :
    Meow.absorb f m (xs ++ ys) = Meow.absorb f (Meow.absorb f m xs) ys := by
  unfold Meow.absorb
  rw [byteLoop_append]

theorem op_header_eq (f : Perm) (m : Meow) (x : Nat) :
    Meow.op_header f m x =
      if x &&& (FLAG_C ||| FLAG_K) ≠ 0 ∧
          (Meow.absorb f { m with pos_begin := m.pos + 1 } [m.pos_begin, x]).pos ≠ 0
      then Meow.run_f f (Meow.absorb f { m with pos_begin := m.pos + 1 } [m.pos_begin, x])
      else Meow.absorb f { m with pos_begin := m.pos + 1 } [m.pos_begin, x] := rfl

theorem op_header_fields (f : Perm) (m : Meow) (x : Nat) :
    (Meow.op_header f m x).role = m.role ∧
    (Meow.op_header f m x).cur_flags = m.cur_flags := by
  rw [op_header_eq]
  split
  · rw [run_f_role, run_f_cur, (absorb_rolecur f _ _).1, (absorb_rolecur f _ _).2]
    exact ⟨rfl, rfl⟩
  · rw [(absorb_rolecur f _ _).1, (absorb_rolecur f _ _).2]
    exact ⟨rfl, rfl⟩

theorem op_header_pos (f : Perm) (m : Meow) (x : Nat) (h : m.pos < MEOW_R) :
    (Meow.op_header f m x).pos < MEOW_R := by
  rw [op_header_eq]
  split
  · rw [run_f_pos]; decide
  · exact absorb_pos f _ _ h

theorem op_header_congr (f : Perm) (m1 m2 : Meow) (x : Nat)
    (hs : m1.state = m2.state) (hp : m1.pos = m2.pos)
    (hpb : m1.pos_begin = m2.pos_begin) :
    (Meow.op_header f m1 x).state = (Meow.op_header f m2 x).state ∧
    (Meow.op_header f m1 x).pos = (Meow.op_header f m2 x).pos ∧
    (Meow.op_header f m1 x).pos_begin = (Meow.op_header f m2 x).pos_begin := by
  rw [op_header_eq f m1 x, op_header_eq f m2 x, hpb]
  have habs := byteLoop_congr f absorbCore
    (fun n1 n2 b ns np npb => by
      refine ⟨?_, np, npb, rfl⟩
      simp only [absorbCore, ns, np])
    [m2.pos_begin, x] { m1 with pos_begin := m1.pos + 1 }
    { m2 with pos_begin := m2.pos + 1 } hs hp (by simp [hp])
  have bs : (Meow.absorb f { m1 with pos_begin := m1.pos + 1 } [m2.pos_begin, x]).state =
      (Meow.absorb f { m2 with pos_begin := m2.pos + 1 } [m2.pos_begin, x]).state := habs.1
  have bp : (Meow.absorb f { m1 with pos_begin := m1.pos + 1 } [m2.pos_begin, x]).pos =
      (Meow.absorb f { m2 with pos_begin := m2.pos + 1 } [m2.pos_begin, x]).pos := habs.2.1
  have bpb : (Meow.absorb f { m1 with pos_begin := m1.pos + 1 } [m2.pos_begin, x]).pos_begin =
      (Meow.absorb f { m2 with pos_begin := m2.pos + 1 } [m2.pos_begin, x]).pos_begin := habs.2.2.1
  rw [bp]
  split
  · exact run_f_congr f _ _ bs bp bpb
  · exact ⟨bs, bp, bpb⟩

theorem to_flag_fromU8 (flags : Nat) :
    Role.to_flag (Role.fromU8 (flags &&& FLAG_I)) = Except.ok (flags &&& FLAG_I) := by
  have h : flags &&& FLAG_I = flags % 2 := Nat.and_one_is_mod flags
  rcases Nat.mod_two_eq_zero_or_one flags with h2 | h2 <;> rw [h, h2] <;> rfl

theorem begin_op_ok_shape (f : Perm) (m : Meow) (flags : Nat) (more : Bool)
    (m2 : Meow) (h : Meow.begin_op f m flags more = Except.ok m2) :
    (more = true ∧ m2 = m ∧ m.cur_flags = flags) ∨
    (∃ m3 x, m2 = Meow.op_header f m3 x ∧ m3.state = m.state ∧
      m3.pos = m.pos ∧ m3.pos_begin = m.pos_begin ∧ m3.cur_flags = flags ∧
      (m.role ≠ Role.Undecided → m3.role = m.role)) := by
  obtain ⟨st, p, pb, r, cf⟩ := m
  cases more
  · right
    simp only [Meow.begin_op] at h
    by_cases hT : flags &&& FLAG_T ≠ 0
    · rw [if_pos hT] at h
      cases r with
      | Undecided =>
        rw [if_pos rfl] at h
        simp only [to_flag_fromU8] at h
        cases h
        exact ⟨_, _, rfl, rfl, rfl, rfl, rfl, fun hnd => absurd rfl hnd⟩
      | Initiator =>
        rw [if_neg (by decide)] at h
        simp only [Role.to_flag] at h
        cases h
        exact ⟨_, _, rfl, rfl, rfl, rfl, rfl, fun _ => rfl⟩
      | Responder =>
        rw [if_neg (by decide)] at h
        simp only [Role.to_flag] at h
        cases h
        exact ⟨_, _, rfl, rfl, rfl, rfl, rfl, fun _ => rfl⟩
    · rw [if_neg hT] at h
      cases h
      exact ⟨_, _, rfl, rfl, rfl, rfl, rfl, fun _ => rfl⟩
  · simp only [Meow.begin_op] at h
    split at h
    · next hc => cases h; exact Or.inl ⟨rfl, rfl, hc⟩
    · cases h

theorem begin_op_error (f : Perm) (m : Meow) (flags : Nat) (more : Bool)
    (p : Panic) (h : Meow.begin_op f m flags more = Except.error p) :
    p = Panic.contMismatch ∧ more = true := by
  obtain ⟨st, pq, pb, r, cf⟩ := m
  cases more
  · exfalso
    simp only [Meow.begin_op] at h
    by_cases hT : flags &&& FLAG_T ≠ 0
    · rw [if_pos hT] at h
      cases r with
      | Undecided =>
        rw [if_pos rfl] at h
        simp only [to_flag_fromU8] at h
        cases h
      | Initiator =>
        rw [if_neg (by decide)] at h
        simp only [Role.to_flag] at h
        cases h
      | Responder =>
        rw [if_neg (by decide)] at h
        simp only [Role.to_flag] at h
        cases h
    · rw [if_neg hT] at h
      cases h
  · simp only [Meow.begin_op] at h
    split at h
    · cases h
    · cases h; exact ⟨rfl, rfl⟩

theorem begin_op_ok_false (f : Perm) (m : Meow) (flags : Nat) :
    ∃ m2, Meow.begin_op f m flags false = Except.ok m2 := by
  cases hb : Meow.begin_op f m flags false with
  | ok m2 => exact ⟨m2, rfl⟩
  | error p => exact absurd (begin_op_error f m flags false p hb).2 (by simp)

theorem begin_op_pos_lt (f : Perm) (m : Meow) (flags : Nat) (more : Bool)
    (m2 : Meow) (h : Meow.begin_op f m flags more = Except.ok m2)
    (hp : m.pos < MEOW_R) : m2.pos < MEOW_R := by
  rcases begin_op_ok_shape f m flags more m2 h with ⟨_, h2, _⟩ | ⟨m3, x, h2, _, hp3, _, _, _⟩
  · rw [h2]; exact hp
  · rw [h2]; exact op_header_pos f m3 x (by rw [hp3]; exact hp)

theorem begin_op_role_pres (f : Perm) (m : Meow) (flags : Nat) (more : Bool)
    (m2 : Meow) (h : Meow.begin_op f m flags more = Except.ok m2)
    (hrole : m.role ≠ Role.Undecided) : m2.role = m.role := by
  rcases begin_op_ok_shape f m flags more m2 h with ⟨_, h2, _⟩ | ⟨m3, x, h2, _, _, _, _, hr⟩
  · rw [h2]
  · rw [h2, (op_header_fields f m3 x).1]; exact hr hrole

theorem begin_op_cur (f : Perm) (m : Meow) (flags : Nat) (more : Bool)
    (m2 : Meow) (h : Meow.begin_op f m flags more = Except.ok m2) :
    m2.cur_flags = flags := by
  rcases begin_op_ok_shape f m flags more m2 h with ⟨_, h2, h3⟩ | ⟨m3, x, h2, _, _, _, hcf, _⟩
  · rw [h2]; exact h3
  · rw [h2, (op_header_fields f m3 x).2]; exact hcf

theorem except_map_map (e : Except Panic Meow) (g : Meow → Meow × List Nat)
    (h2 : Meow × List Nat → Meow) :
    (e.map g).map h2 = e.map (fun x => h2 (g x)) := by
  cases e <;> rfl

theorem except_map_map3 (e : Except Panic Meow)
    (g : Meow → Meow × List Nat × Except MacError Unit)
    (h2 : Meow × List Nat × Except MacError Unit → Meow) :
    (e.map g).map h2 = e.map (fun x => h2 (g x)) := by
  cases e <;> rfl

theorem runOp_eq (f : Perm) (op : Op) (m : Meow) :
    runOp f op m =
      (Meow.begin_op f m (opFlags op) ((moreOf op).getD false)).map
        (fun m1 => payloadOf f op m1) := by
  cases op <;>
    simp only [runOp, Meow.ad, Meow.meta_ad, Meow.key, Meow.send_clr,
      Meow.meta_send_clr, Meow.recv_clr, Meow.meta_recv_clr, Meow.send_enc,
      Meow.meta_send_enc, Meow.recv_enc, Meow.meta_recv_enc, Meow.send_mac,
      Meow.meta_send_mac, Meow.recv_mac, Meow.meta_recv_mac, Meow.prf,
      Meow.ratchet, Meow.ratchet_many, except_map_map, except_map_map3] <;>
    rfl

theorem payload_pos (f : Perm) (op : Op) (m : Meow) (h : m.pos < MEOW_R) :
    (payloadOf f op m).pos < MEOW_R := by
  cases op <;>
    exact byteLoop_pos f _ (fun _ _ => rfl) _ m h

theorem payload_rolecur (f : Perm) (op : Op) (m : Meow) :
    (payloadOf f op m).role = m.role ∧
    (payloadOf f op m).cur_flags = m.cur_flags := by
  cases op <;>
    exact byteLoop_rolecur f _ (fun _ _ => ⟨rfl, rfl⟩) _ m

theorem runOp_pos (f : Perm) (op : Op) (m : Meow) (h : m.pos < MEOW_R) :
    posOf (runOp f op m) < MEOW_R := by
  rw [runOp_eq]
  cases hb : Meow.begin_op f m (opFlags op) ((moreOf op).getD false) with
  | error p => simp only [Except.map, posOf]; decide
  | ok m1 =>
    simp only [Except.map, posOf]
    exact payload_pos f op m1 (begin_op_pos_lt f m _ _ m1 hb h)

theorem runOp_role_pres (f : Perm) (op : Op) (m : Meow)
    (hrole : m.role ≠ Role.Undecided) :
    (match runOp f op m with
     | Except.ok m2 => m2.role = m.role
     | Except.error _ => True) := by
  rw [runOp_eq]
  cases hb : Meow.begin_op f m (opFlags op) ((moreOf op).getD false) with
  | error p => simp [Except.map]
  | ok m1 =>
    simp only [Except.map]
    rw [(payload_rolecur f op m1).1]
    exact begin_op_role_pres f m _ _ m1 hb hrole

theorem new_eq (f : Perm) (label : List Nat) :
    Meow.new f label = Except.ok (Meow.absorb f
      (Meow.op_header f
        { state := f initState, pos := 0, pos_begin := 0,
          role := Role.Undecided, cur_flags := FLAG_M ||| FLAG_A }
        (FLAG_M ||| FLAG_A)) label) := rfl

theorem new_fields (f : Perm) (label : List Nat) (m0 : Meow)
    (h : Meow.new f label = Except.ok m0) :
    m0.role = Role.Undecided ∧ m0.cur_flags = (FLAG_M ||| FLAG_A) ∧
    m0.pos < MEOW_R := by
  rw [new_eq] at h
  cases h
  refine ⟨?_, ?_, ?_⟩
  · rw [(absorb_rolecur f _ _).1, (op_header_fields f _ _).1]
  · rw [(absorb_rolecur f _ _).2, (op_header_fields f _ _).2]
  · exact absorb_pos f _ _ (op_header_pos f _ _ (show (0 : Nat) < MEOW_R by decide))

theorem runOps_pos (f : Perm) :
    ∀ (ops : List Op) (m : Meow), m.pos < MEOW_R →
      posOf (runOps f ops m) < MEOW_R := by
  intro ops
  induction ops with
  | nil => intro m h; exact h
  | cons op rest ih =>
    intro m h
    show posOf (Except.bind (runOp f op m) _) < MEOW_R
    cases ho : runOp f op m with
    | error p => simp only [Except.bind, posOf]; decide
    | ok m1 =>
      simp only [Except.bind]
      have := runOp_pos f op m h
      rw [ho] at this
      exact ih m1 this

/-- Claim C9: for every instance produced by new and every sequence of
public operation calls, the cursor invariant pos less than the rate 166
holds after each call, and advancing the cursor runs the framing step
exactly when the incremented cursor reaches the rate, resetting it to 0. -/
theorem c9_pos_invariant :
    ∀ (f : Perm) (label : List Nat) (ops : List Op),
      posOf (runFromNew f label ops) < MEOW_R ∧
      ∀ m : Meow, Meow.advance_pos f m =
        if m.pos + 1 = MEOW_R then Meow.run_f f { m with pos := m.pos + 1 }
        else { m with pos := m.pos + 1 } := by
  intro f label ops
  refine ⟨?_, fun m => advance_pos_eq f m⟩
  show posOf (Except.bind (Meow.new f label) _) < MEOW_R
  cases hn : Meow.new f label with
  | error p => simp only [Except.bind, posOf]; decide
  | ok m0 =>
    simp only [Except.bind]
    exact runOps_pos f ops m0 (new_fields f label m0 hn).2.2

/-- Claim C10: through the public interface, the conversion of a role to
its wire-flag bit is never invoked while the role is Undecided; the abort
branch of Role::to_flag is unreachable from every public operation and
from new. -/
theorem c10_undecided_unreachable :
    ∀ (f : Perm) (op : Op) (m : Meow) (label : List Nat),
      runOp f op m ≠ Except.error Panic.undecidedRole ∧
      Meow.new f label ≠ Except.error Panic.undecidedRole := by
  intro f op m label
  constructor
  · intro h
    rw [runOp_eq] at h
    cases hb : Meow.begin_op f m (opFlags op) ((moreOf op).getD false) with
    | ok m1 => rw [hb] at h; cases h
    | error p =>
      rw [hb] at h
      cases h
      exact absurd (begin_op_error f m _ _ _ hb).1 (by decide)
  · intro h
    rw [new_eq] at h
    cases h

/-- Witness for C10 at a concrete instance and operation. -/
theorem c10_undecided_unreachable_witness :
    runOp id Op.ratchet cexMeow ≠ Except.error Panic.undecidedRole :=
  (c10_undecided_unreachable id Op.ratchet cexMeow []).1

/-- Claim C5: the framing and padding step run_f performs exactly the
update the specification describes: AND state[pos] with pos_begin, AND
state[pos+1] with 0x04, XOR state[rate+1] (rate being 166) with 0x80,
permute, then reset pos and pos_begin to 0. -/
theorem c5_run_f_matches_spec :
    ∀ (f : Perm) (m : Meow), Meow.run_f f m = run_f_spec f m :=
  fun _ _ => rfl

/-- Claim C8: a continuation call (more true) panics exactly when its
flags differ from the latched flags, and otherwise absorbs no header and
runs only the payload primitive of the operation. -/
theorem c8_continuation (f : Perm) (op : Op) (m : Meow)
    (h : moreOf op = some true) :
    runOp f op m =
      if opFlags op = m.cur_flags then Except.ok (payloadOf f op m)
      else Except.error Panic.contMismatch := by
  rw [runOp_eq, h]
  show (if m.cur_flags = opFlags op then Except.ok m
        else Except.error Panic.contMismatch).map (fun m1 => payloadOf f op m1) = _
  by_cases hc : m.cur_flags = opFlags op
  · rw [if_pos hc, if_pos hc.symm]; rfl
  · rw [if_neg hc, if_neg (fun hh => hc hh.symm)]; rfl

/-- Witness for C8: a continuation ad call on an instance whose latched
flags match continues, evaluated at a concrete instance. -/
theorem c8_continuation_witness :
    runOp id (Op.ad [3] true) { cexMeow with cur_flags := FLAG_A } =
      if opFlags (Op.ad [3] true) =
          ({ cexMeow with cur_flags := FLAG_A } : Meow).cur_flags
      then Except.ok (payloadOf id (Op.ad [3] true)
        { cexMeow with cur_flags := FLAG_A })
      else Except.error Panic.contMismatch :=
  c8_continuation id (Op.ad [3] true) { cexMeow with cur_flags := FLAG_A } rfl

/-- Claim C6: starting from Undecided, the first non-continuation
operation with the Transport bit decides the role (Responder exactly when
Inbound is set), XORs the decided role bit into the absorbed header flags,
and the role never changes afterwards: every public operation preserves a
decided role, and operations without Transport or continuations preserve
any role. -/
theorem c6_role_transition :
    ∀ (f : Perm) (m : Meow) (flags : Nat) (op : Op) (m3 m5 : Meow)
      (flags3 : Nat) (more3 : Bool),
      m.role = Role.Undecided → flags &&& FLAG_T ≠ 0 →
      m3.role ≠ Role.Undecided → (flags3 &&& FLAG_T = 0 ∨ more3 = true) →
      (Meow.begin_op f m flags false =
        Except.ok (Meow.op_header f
          { m with cur_flags := flags, role := Role.fromU8 (flags &&& FLAG_I) }
          (flags ^^^ (flags &&& FLAG_I)))) ∧
      (Role.fromU8 (flags &&& FLAG_I) =
        if flags &&& FLAG_I ≠ 0 then Role.Responder else Role.Initiator) ∧
      (match runOp f op m3 with
       | Except.ok m4 => m4.role = m3.role
       | Except.error _ => True) ∧
      (match Meow.begin_op f m5 flags3 more3 with
       | Except.ok m6 => m6.role = m5.role
       | Except.error _ => True) := by
  intro f m flags op m3 m5 flags3 more3 h1 h2 h3 h4
  refine ⟨?_, ?_, runOp_role_pres f op m3 h3, ?_⟩
  · obtain ⟨st, p, pb, r, cf⟩ := m
    have hr : r = Role.Undecided := h1
    subst hr
    simp only [Meow.begin_op]
    rw [if_pos h2]
    rw [if_pos trivial]
    simp only [to_flag_fromU8]
  · have hmod : flags &&& FLAG_I = flags % 2 := Nat.and_one_is_mod flags
    rcases Nat.mod_two_eq_zero_or_one flags with hb | hb <;> rw [hmod, hb]
    · rw [if_neg (by decide)]; rfl
    · rw [if_pos (by decide)]; rfl
  · cases more3 with
    | false =>
      rcases h4 with h4 | h4
      · obtain ⟨st5, p5, pb5, r5, cf5⟩ := m5
        have hb : Meow.begin_op f ⟨st5, p5, pb5, r5, cf5⟩ flags3 false =
            Except.ok (Meow.op_header f
              { state := st5, pos := p5, pos_begin := pb5, role := r5,
                cur_flags := flags3 } flags3) := by
          simp only [Meow.begin_op]
          first
          | rfl
          | rw [if_neg (fun hx => hx h4)]
        rw [hb]
        exact (op_header_fields f _ _).1
      · cases h4
    | true =>
      by_cases hc : m5.cur_flags = flags3
      · have hb : Meow.begin_op f m5 flags3 true = Except.ok m5 := by
          simp only [Meow.begin_op]
          rw [if_pos hc]
        rw [hb]
      · have hb : Meow.begin_op f m5 flags3 true =
            Except.error Panic.contMismatch := by
          simp only [Meow.begin_op]
          rw [if_neg hc]
        rw [hb]
        exact trivial

/-- Witness for C6: the decision equation evaluated on a concrete fresh
instance and a concrete Transport operation. -/
theorem c6_role_transition_witness :
    Meow.begin_op id cexMeow FLAG_T false =
      Except.ok (Meow.op_header id
        { cexMeow with cur_flags := FLAG_T,
                       role := Role.fromU8 (FLAG_T &&& FLAG_I) }
        (FLAG_T ^^^ (FLAG_T &&& FLAG_I))) :=
  (c6_role_transition id cexMeow FLAG_T Op.ratchet
    { cexMeow with role := Role.Initiator } cexMeow FLAG_A false rfl
    (by decide) (by decide) (Or.inl (by decide))).1

/-- Counterexample to claim C4 as stated: a call of begin_op whose flags
are exactly the reserved Keytree bit does not fail fast; it proceeds and
returns a value. -/
theorem c4_keytree_counterexample :
    Meow.begin_op id cexMeow FLAG_K false =
      Except.ok (Meow.op_header id { cexMeow with cur_flags := FLAG_K } FLAG_K) :=
  rfl

/-- Amended claim C4: no public operation ever latches flags containing
the Keytree bit (after new and after every successful public operation the
latched flags have a clear Keytree bit, and every successful operation
latches exactly its own flag byte, none of which includes Keytree), so the
Keytree mode is never executed as a normal operation; however a
begin_op call is never rejected for carrying the Keytree bit: with the
continuation argument false it always returns a value. -/
theorem c4_keytree_never_latched :
    ∀ (f : Perm) (label : List Nat) (op : Op) (m m5 : Meow) (flags : Nat),
      (match Meow.new f label with
       | Except.ok m0 => m0.cur_flags &&& FLAG_K = 0
       | Except.error _ => True) ∧
      (match runOp f op m with
       | Except.ok m2 => m2.cur_flags = opFlags op ∧ m2.cur_flags &&& FLAG_K = 0
       | Except.error _ => True) ∧
      (∃ m6, Meow.begin_op f m5 flags false = Except.ok m6) := by
  intro f label op m m5 flags
  refine ⟨?_, ?_, begin_op_ok_false f m5 flags⟩
  · rw [new_eq]
    show (Meow.absorb f (Meow.op_header f
      { state := f initState, pos := 0, pos_begin := 0,
        role := Role.Undecided, cur_flags := FLAG_M ||| FLAG_A }
      (FLAG_M ||| FLAG_A)) label).cur_flags &&& FLAG_K = 0
    rw [(absorb_rolecur f _ _).2, (op_header_fields f _ _).2]
    show (FLAG_M ||| FLAG_A) &&& FLAG_K = 0
    decide
  · rw [runOp_eq]
    cases hb : Meow.begin_op f m (opFlags op) ((moreOf op).getD false) with
    | error p => exact trivial
    | ok m1 =>
      show (payloadOf f op m1).cur_flags = opFlags op ∧
        (payloadOf f op m1).cur_flags &&& FLAG_K = 0
      have hc : (payloadOf f op m1).cur_flags = opFlags op := by
        rw [(payload_rolecur f op m1).2]
        exact begin_op_cur f m _ _ m1 hb
      refine ⟨hc, ?_⟩
      rw [hc]
      cases op <;> simp only [opFlags] <;> decide

set_option maxRecDepth 8192

theorem getD_set_self (l : List Nat) (i v : Nat) (h : i < l.length) :
    (l.set i v).getD i 0 = v := by
  rw [List.getD_eq_getElem?_getD, List.getElem?_set_self h]
  rfl

/-- Counterexample to claim C3 as stated: on an instance whose state byte
at the cursor is 1 and input byte 0, the exchange primitive does not leave
the state byte equal to the pre-update state byte XOR the original input
byte (that would be 1); it leaves it equal to the original input byte 0. -/
theorem c3_exchange_counterexample :
    ¬ ((Meow.exchange id cexM3 [0]).2 = [cexM3.state.getD 0 0 ^^^ 0] ∧
       (Meow.exchange id cexM3 [0]).1.state.getD 0 0 =
         cexM3.state.getD 0 0 ^^^ 0) := by
  decide

/-- Amended claim C3: for each byte processed by the exchange primitive,
the output byte written back into the buffer equals the pre-update state
byte XOR the input byte, and the new state byte equals the original input
byte (equivalently, the pre-update state byte XOR the output byte). -/
theorem c3_exchange_byte_semantics (m : Meow) (b : Nat)
    (h : m.pos < m.state.length) :
    (exchangeCore m b).2 = m.state.getD m.pos 0 ^^^ b ∧
    (exchangeCore m b).1.state.getD m.pos 0 = b := by
  constructor
  · show b ^^^ m.state.getD m.pos 0 = m.state.getD m.pos 0 ^^^ b
    exact Nat.xor_comm _ _
  · show (m.state.set m.pos
      (m.state.getD m.pos 0 ^^^ (b ^^^ m.state.getD m.pos 0))).getD m.pos 0 = b
    rw [getD_set_self _ _ _ h]
    rw [Nat.xor_comm b, ← Nat.xor_assoc, Nat.xor_self, Nat.zero_xor]

/-- Witness for the amended C3 at a concrete instance and byte. -/
theorem c3_exchange_byte_semantics_witness :
    (exchangeCore cexM3 0).2 = cexM3.state.getD cexM3.pos 0 ^^^ 0 ∧
    (exchangeCore cexM3 0).1.state.getD cexM3.pos 0 = 0 :=
  c3_exchange_byte_semantics cexM3 0 (by decide)

/-- Claim C7: an ad call followed by a continuation ad call leaves the
instance in exactly the state of the single ad call on the concatenated
input, for every starting state and every split point. -/
theorem c7_streaming_ad (f : Perm) (m : Meow) (X Y : List Nat) :
    Except.bind (Meow.ad f m X false) (fun m1 => Meow.ad f m1 Y true) =
      Meow.ad f m (X ++ Y) false := by
  have hb : Meow.begin_op f m FLAG_A false =
      Except.ok (Meow.op_header f { m with cur_flags := FLAG_A } FLAG_A) := rfl
  have h1 : Meow.ad f m X false = Except.ok
      (Meow.absorb f (Meow.op_header f { m with cur_flags := FLAG_A } FLAG_A) X) := by
    unfold Meow.ad
    rw [hb]
    rfl
  rw [h1]
  show Meow.ad f
      (Meow.absorb f (Meow.op_header f { m with cur_flags := FLAG_A } FLAG_A) X)
      Y true = Meow.ad f m (X ++ Y) false
  have hcur : (Meow.absorb f
      (Meow.op_header f { m with cur_flags := FLAG_A } FLAG_A) X).cur_flags =
        FLAG_A := by
    rw [(absorb_rolecur f _ _).2, (op_header_fields f _ _).2]
  have hb2 : Meow.begin_op f
      (Meow.absorb f (Meow.op_header f { m with cur_flags := FLAG_A } FLAG_A) X)
      FLAG_A true = Except.ok
        (Meow.absorb f (Meow.op_header f { m with cur_flags := FLAG_A } FLAG_A) X) := by
    simp only [Meow.begin_op]
    rw [if_pos hcur]
  unfold Meow.ad
  rw [hb2, hb]
  show Except.ok (Meow.absorb f
      (Meow.absorb f (Meow.op_header f { m with cur_flags := FLAG_A } FLAG_A) X) Y) =
    Except.ok (Meow.absorb f
      (Meow.op_header f { m with cur_flags := FLAG_A } FLAG_A) (X ++ Y))
  rw [absorb_append]

theorem ok_bind {α β : Type} (a : α) (g : α → Except Panic β) :
    Except.bind (Except.ok a) g = g a := rfl

theorem overwrite_rolecur (f : Perm) (m : Meow) (data : List Nat) :
    (Meow.overwrite f m data).role = m.role ∧
    (Meow.overwrite f m data).cur_flags = m.cur_flags :=
  byteLoop_rolecur f overwriteCore (fun _ _ => ⟨rfl, rfl⟩) data m

theorem absorb_and_set_cons (f : Perm) (m : Meow) (b : Nat) (bs : List Nat) :
    Meow.absorb_and_set f m (b :: bs) =
      ((Meow.absorb_and_set f (Meow.advance_pos f (absorbAndSetCore m b).1) bs).1,
       (absorbAndSetCore m b).2 ::
         (Meow.absorb_and_set f (Meow.advance_pos f (absorbAndSetCore m b).1) bs).2) :=
  rfl

theorem exchange_cons (f : Perm) (m : Meow) (b : Nat) (bs : List Nat) :
    Meow.exchange f m (b :: bs) =
      ((Meow.exchange f (Meow.advance_pos f (exchangeCore m b).1) bs).1,
       (exchangeCore m b).2 ::
         (Meow.exchange f (Meow.advance_pos f (exchangeCore m b).1) bs).2) :=
  rfl

theorem exchangeCore_out (m : Meow) (b : Nat) :
    (exchangeCore m b).2 = b ^^^ m.state.getD m.pos 0 := rfl

theorem begin_op_undecided (f : Perm) (m : Meow) (flags : Nat)
    (h1 : m.role = Role.Undecided) (h2 : flags &&& FLAG_T ≠ 0) :
    Meow.begin_op f m flags false =
      Except.ok (Meow.op_header f
        { m with cur_flags := flags, role := Role.fromU8 (flags &&& FLAG_I) }
        (flags ^^^ (flags &&& FLAG_I))) := by
  obtain ⟨st, p, pb, r, cf⟩ := m
  have hr : r = Role.Undecided := h1
  subst hr
  simp only [Meow.begin_op]
  rw [if_pos h2]
  rw [if_pos trivial]
  simp only [to_flag_fromU8]

theorem exchange_absorb_and_set (f : Perm) :
    ∀ (data : List Nat) (m1 m2 : Meow),
      m1.state = m2.state → m1.pos = m2.pos → m1.pos_begin = m2.pos_begin →
      (Meow.exchange f m2 (Meow.absorb_and_set f m1 data).2).2 = data ∧
      (Meow.exchange f m2 (Meow.absorb_and_set f m1 data).2).1.state =
        (Meow.absorb_and_set f m1 data).1.state ∧
      (Meow.exchange f m2 (Meow.absorb_and_set f m1 data).2).1.pos =
        (Meow.absorb_and_set f m1 data).1.pos ∧
      (Meow.exchange f m2 (Meow.absorb_and_set f m1 data).2).1.pos_begin =
        (Meow.absorb_and_set f m1 data).1.pos_begin := by
  intro data
  induction data with
  | nil =>
    intro m1 m2 hs hp hpb
    exact ⟨rfl, hs.symm, hp.symm, hpb.symm⟩
  | cons b bs ih =>
    intro m1 m2 hs hp hpb
    have hw : (exchangeCore m2 (absorbAndSetCore m1 b).2).2 = b := by
      rw [exchangeCore_out]
      show (m1.state.getD m1.pos 0 ^^^ b) ^^^ m2.state.getD m2.pos 0 = b
      rw [← hs, ← hp, Nat.xor_comm (m1.state.getD m1.pos 0) b, Nat.xor_assoc,
        Nat.xor_self, Nat.xor_zero]
    have hcs : (absorbAndSetCore m1 b).1.state =
        (exchangeCore m2 (absorbAndSetCore m1 b).2).1.state := by
      show m1.state.set m1.pos (m1.state.getD m1.pos 0 ^^^ b) =
        m2.state.set m2.pos (m2.state.getD m2.pos 0 ^^^
          ((m1.state.getD m1.pos 0 ^^^ b) ^^^ m2.state.getD m2.pos 0))
      rw [← hs, ← hp, Nat.xor_comm (m1.state.getD m1.pos 0) b, Nat.xor_assoc,
        Nat.xor_self, Nat.xor_zero, Nat.xor_comm b (m1.state.getD m1.pos 0)]
    obtain ⟨as, ap, apb⟩ := advance_congr f (absorbAndSetCore m1 b).1
      (exchangeCore m2 (absorbAndSetCore m1 b).2).1 hcs hp hpb
    obtain ⟨io, is2, ip, ipb⟩ := ih
      (Meow.advance_pos f (absorbAndSetCore m1 b).1)
      (Meow.advance_pos f (exchangeCore m2 (absorbAndSetCore m1 b).2).1)
      as ap apb
    refine ⟨?_, ?_, ?_, ?_⟩
    · simp only [absorb_and_set_cons, exchange_cons]
      rw [hw, io]
    · simp only [absorb_and_set_cons, exchange_cons]
      exact is2
    · simp only [absorb_and_set_cons, exchange_cons]
      exact ip
    · simp only [absorb_and_set_cons, exchange_cons]
      exact ipb

/-- Claim C1: for every permutation, protocol label, key and message of
any length, new(label); key(K); send_enc(M) turns the buffer into a
ciphertext, and new(label); key(K); recv_enc on that ciphertext on a fresh
instance leaves the receiver buffer equal to the original message M. -/
theorem c1_round_trip :
    ∀ (f : Perm) (label K M : List Nat), ∃ ms c mr,
      sendChain f label K M = Except.ok (ms, c) ∧
      recvChain f label K c = Except.ok (mr, M) := by
  intro f label K M
  set n1 := Meow.absorb f (Meow.op_header f
    { state := f initState, pos := 0, pos_begin := 0, role := Role.Undecided,
      cur_flags := FLAG_M ||| FLAG_A } (FLAG_M ||| FLAG_A)) label with hn1
  set m1 := Meow.overwrite f (Meow.op_header f
    { n1 with cur_flags := FLAG_A ||| FLAG_C } (FLAG_A ||| FLAG_C)) K with hm1
  have hkey : Meow.key f n1 K false = Except.ok m1 := by rw [hm1]; rfl
  have hrole1 : m1.role = Role.Undecided := by
    rw [hm1, (overwrite_rolecur f _ _).1, (op_header_fields f _ _).1]
    show n1.role = Role.Undecided
    rw [hn1, (absorb_rolecur f _ _).1, (op_header_fields f _ _).1]
  have hsend : sendChain f label K M = Meow.send_enc f m1 M false := by
    unfold sendChain
    rw [new_eq, ← hn1]
    simp only [ok_bind]
    rw [hkey]
    simp only [ok_bind]
  have hrecv : ∀ C, recvChain f label K C = Meow.recv_enc f m1 C false := by
    intro C
    unfold recvChain
    rw [new_eq, ← hn1]
    simp only [ok_bind]
    rw [hkey]
    simp only [ok_bind]
  have hb14 : Meow.begin_op f m1 (FLAG_A ||| FLAG_C ||| FLAG_T) false =
      Except.ok (Meow.op_header f { m1 with cur_flags := FLAG_A ||| FLAG_C ||| FLAG_T, role := Role.Initiator } (FLAG_A ||| FLAG_C ||| FLAG_T)) := by
    rw [begin_op_undecided f m1 _ hrole1 (by decide)]
    rfl
  have hb15 : Meow.begin_op f m1 (FLAG_I ||| FLAG_A ||| FLAG_C ||| FLAG_T) false =
      Except.ok (Meow.op_header f { m1 with cur_flags := FLAG_I ||| FLAG_A ||| FLAG_C ||| FLAG_T, role := Role.Responder } (FLAG_A ||| FLAG_C ||| FLAG_T)) := by
    rw [begin_op_undecided f m1 _ hrole1 (by decide)]
    rfl
  obtain ⟨hhs, hhp, hhpb⟩ := op_header_congr f
    { m1 with cur_flags := FLAG_A ||| FLAG_C ||| FLAG_T, role := Role.Initiator }
    { m1 with cur_flags := FLAG_I ||| FLAG_A ||| FLAG_C ||| FLAG_T, role := Role.Responder }
    (FLAG_A ||| FLAG_C ||| FLAG_T) rfl rfl rfl
  obtain ⟨ho, _, _, _⟩ := exchange_absorb_and_set f M
    (Meow.op_header f { m1 with cur_flags := FLAG_A ||| FLAG_C ||| FLAG_T, role := Role.Initiator } (FLAG_A ||| FLAG_C ||| FLAG_T))
    (Meow.op_header f { m1 with cur_flags := FLAG_I ||| FLAG_A ||| FLAG_C ||| FLAG_T, role := Role.Responder } (FLAG_A ||| FLAG_C ||| FLAG_T))
    hhs hhp hhpb
  refine ⟨(Meow.absorb_and_set f (Meow.op_header f { m1 with cur_flags := FLAG_A ||| FLAG_C ||| FLAG_T, role := Role.Initiator } (FLAG_A ||| FLAG_C ||| FLAG_T)) M).1,
    (Meow.absorb_and_set f (Meow.op_header f { m1 with cur_flags := FLAG_A ||| FLAG_C ||| FLAG_T, role := Role.Initiator } (FLAG_A ||| FLAG_C ||| FLAG_T)) M).2,
    (Meow.exchange f (Meow.op_header f { m1 with cur_flags := FLAG_I ||| FLAG_A ||| FLAG_C ||| FLAG_T, role := Role.Responder } (FLAG_A ||| FLAG_C ||| FLAG_T))
      (Meow.absorb_and_set f (Meow.op_header f { m1 with cur_flags := FLAG_A ||| FLAG_C ||| FLAG_T, role := Role.Initiator } (FLAG_A ||| FLAG_C ||| FLAG_T)) M).2).1,
    ?_, ?_⟩
  · rw [hsend]
    unfold Meow.send_enc
    rw [hb14]
    rfl
  · rw [hrecv]
    unfold Meow.recv_enc
    rw [hb15]
    show Except.ok (Meow.exchange f (Meow.op_header f { m1 with cur_flags := FLAG_I ||| FLAG_A ||| FLAG_C ||| FLAG_T, role := Role.Responder } (FLAG_A ||| FLAG_C ||| FLAG_T))
      (Meow.absorb_and_set f (Meow.op_header f { m1 with cur_flags := FLAG_A ||| FLAG_C ||| FLAG_T, role := Role.Initiator } (FLAG_A ||| FLAG_C ||| FLAG_T)) M).2) = _
    exact congrArg Except.ok (Prod.ext rfl ho)

theorem ok_map {α β : Type} (g : α → β) (a : α) :
    (Except.ok a : Except Panic α).map g = Except.ok (g a) := rfl

theorem allZero_cons (a : Nat) (t : List Nat) :
    allZero (a :: t) = (decide (a = 0) && allZero t) := by
  have hacc : ∀ (l : List Nat) (x : Bool),
      List.foldl (fun ok b => ok && decide (b = 0)) x l =
        (x && List.foldl (fun ok b => ok && decide (b = 0)) true l) := by
    intro l
    induction l with
    | nil => intro x; simp
    | cons c cs ih =>
      intro x
      simp only [List.foldl_cons]
      rw [ih (x && decide (c = 0)), ih (true && decide (c = 0)), Bool.true_and,
        Bool.and_assoc]
  show List.foldl _ (true && decide (a = 0)) t = _
  rw [hacc t, Bool.true_and]
  rfl

theorem allZero_iff : ∀ (l : List Nat), allZero l = true ↔ ∀ x ∈ l, x = 0 := by
  intro l
  induction l with
  | nil => simp [allZero]
  | cons a t ih =>
    rw [allZero_cons]
    simp [List.forall_mem_cons, ih]

theorem allZero_false_of_mem (l : List Nat) (x : Nat) (hx : x ∈ l)
    (hnz : x ≠ 0) : allZero l = false := by
  cases hz : allZero l
  · rfl
  · exact absurd ((allZero_iff l).1 hz x hx) hnz

theorem getD_decomp (T : List Nat) (j : Nat) (hj : j < T.length) :
    T = T.take j ++ T.getD j 0 :: T.drop (j + 1) := by
  conv_lhs => rw [← List.take_append_drop j T]
  congr 1
  rw [List.drop_eq_getElem_cons hj]
  congr 1
  rw [List.getD_eq_getElem?_getD, List.getElem?_eq_getElem hj]
  rfl

theorem exchange_split (f : Perm) (m : Meow) (pre : List Nat) (b : Nat)
    (suf : List Nat) :
    (Meow.exchange f m (pre ++ b :: suf)).2 =
      (Meow.exchange f m pre).2 ++
      ((exchangeCore (Meow.exchange f m pre).1 b).2 ::
       (Meow.exchange f
         (Meow.advance_pos f (exchangeCore (Meow.exchange f m pre).1 b).1)
         suf).2) := by
  show (byteLoop f exchangeCore m (pre ++ b :: suf)).2 = _
  rw [byteLoop_append, byteLoop_cons]
  rfl

/-- Claim C2: whenever recv_mac on a state accepts a tag buffer T,
recv_mac on the same state rejects (with a MacError value, not a panic)
every buffer obtained from T by flipping exactly one bit of one byte. -/
theorem c2_mac_bit_flip (f : Perm) (m : Meow) (T : List Nat) (j i : Nat)
    (hj : j < T.length) (hi : i < 8)
    (hok : macResult f m T = some true) :
    macResult f m (T.set j (T.getD j 0 ^^^ 2 ^ i)) = some false := by
  obtain ⟨m1, hb⟩ := begin_op_ok_false f m (FLAG_I ||| FLAG_C ||| FLAG_T)
  have hmac : ∀ (D : List Nat), macResult f m D =
      (if allZero (Meow.exchange f m1 D).2 then some true else some false) := by
    intro D
    simp only [macResult, Meow.recv_mac, hb, ok_map, check_zero]
    by_cases hz : allZero (Meow.exchange f m1 D).2
    · rw [if_pos hz, if_pos hz]
    · rw [if_neg hz, if_neg hz]
  have hzT : allZero (Meow.exchange f m1 T).2 = true := by
    by_cases hz : allZero (Meow.exchange f m1 T).2
    · exact hz
    · rw [hmac T, if_neg hz] at hok
      exact absurd hok (by decide)
  have hdecT : T = T.take j ++ T.getD j 0 :: T.drop (j + 1) := getD_decomp T j hj
  rw [hdecT, exchange_split] at hzT
  have hmid : (exchangeCore (Meow.exchange f m1 (T.take j)).1 (T.getD j 0)).2 = 0 :=
    (allZero_iff _).1 hzT _ (List.mem_append_right _ (List.mem_cons_self _ _))
  have hs : (Meow.exchange f m1 (T.take j)).1.state.getD
      (Meow.exchange f m1 (T.take j)).1.pos 0 = T.getD j 0 := by
    rw [exchangeCore_out] at hmid
    exact (Nat.xor_eq_zero.1 hmid).symm
  have hw : (exchangeCore (Meow.exchange f m1 (T.take j)).1
      (T.getD j 0 ^^^ 2 ^ i)).2 = 2 ^ i := by
    rw [exchangeCore_out, hs, Nat.xor_comm (T.getD j 0) (2 ^ i), Nat.xor_assoc,
      Nat.xor_self, Nat.xor_zero]
  have hdecT2 : T.set j (T.getD j 0 ^^^ 2 ^ i) =
      T.take j ++ (T.getD j 0 ^^^ 2 ^ i) :: T.drop (j + 1) :=
    List.set_eq_take_cons_drop _ hj
  rw [hmac, hdecT2, exchange_split]
  have hfail : allZero ((Meow.exchange f m1 (T.take j)).2 ++
      (exchangeCore (Meow.exchange f m1 (T.take j)).1 (T.getD j 0 ^^^ 2 ^ i)).2 ::
      (Meow.exchange f (Meow.advance_pos f
        (exchangeCore (Meow.exchange f m1 (T.take j)).1 (T.getD j 0 ^^^ 2 ^ i)).1)
        (T.drop (j + 1))).2) = false := by
    apply allZero_false_of_mem _ _
      (List.mem_append_right _ (List.mem_cons_self _ _))
    rw [hw]
    exact Nat.pos_iff_ne_zero.1 (pow_pos (by decide) i)
  rw [hfail]
  rfl

/-- Witness for C2: on a fresh zero instance the one-byte tag [0] is
accepted, and flipping its lowest bit makes recv_mac return a MacError. -/
theorem c2_mac_bit_flip_witness :
    macResult id cexMeow (([0] : List Nat).set 0
      (([0] : List Nat).getD 0 0 ^^^ 2 ^ 0)) = some false :=
  c2_mac_bit_flip id cexMeow [0] 0 0 (by decide) (by decide) (by rfl)
